import Mathlib

/-!
Verification development for the fsearch database engine
(src/fsearch_database.c).  The C code is shallowly embedded: pure helpers
become Lean functions, the work-queue handlers become functions from an
explicit engine state to a new state paired with the list of events they
emit, and machine integers are naturals with explicit reductions modulo
2 to the 32 or 2 to the 8 where the C code truncates.

External modules that are not part of src (the entries-container module,
the per-root index module, the include/exclude managers, the selection
module and the enum header) are modelled from the specification; each such
definition carries a comment saying so.
-/

set_option linter.unusedVariables false

namespace Fsearch

/-- Entry type, from FsearchDatabaseEntryType (file or folder). -/
inductive DatabaseEntryType
| file
| folder
deriving DecidableEq

/-- GtkSortType: the sort direction of a search view. -/
inductive SortType
| ascending
| descending
deriving DecidableEq

/-! ## Snapshot codec (db_file_load / db_file_save helpers) -/

/-- DATABASE_MAJOR_VERSION, fsearch_database.c line 27. -/
def DATABASE_MAJOR_VERSION : Nat := 1

/-- DATABASE_MINOR_VERSION, fsearch_database.c line 28.  The constant in the
source is 0, not 1. -/
def DATABASE_MINOR_VERSION : Nat := 0

/-- DATABASE_MAGIC_NUMBER: the bytes of the string FSDB. -/
def DATABASE_MAGIC_NUMBER : List Nat := [70, 83, 68, 66]

/-- Reads n bytes from a byte stream; fails on a short read, like
read_element_from_file (fread of one element of that size). -/
def read_bytes : Nat → List Nat → Option (List Nat × List Nat)
| 0, bs => some ([], bs)
| _ + 1, [] => none
| n + 1, b :: bs => (read_bytes n bs).map (fun p => (b :: p.1, p.2))

/-- load_header: read the 4 magic bytes and compare with FSDB (strcmp on the
NUL-terminated copy equals plain byte-list equality because FSDB has no
interior NUL), then the major version (must equal DATABASE_MAJOR_VERSION),
then the minor version (must not exceed DATABASE_MINOR_VERSION).  Returns
the remaining stream on success. -/
def load_header (bs : List Nat) : Option (List Nat) :=
  match read_bytes 4 bs with
  | Option.none => none
  | some (magic, r1) =>
    if magic ≠ DATABASE_MAGIC_NUMBER then none
    else
      match r1 with
      | [] => none
      | majorver :: r2 =>
        if majorver ≠ DATABASE_MAJOR_VERSION then none
        else
          match r2 with
          | [] => none
          | minorver :: r3 =>
            if minorver > DATABASE_MINOR_VERSION then none
            else some r3

/-- Property-flag bit for Size.  Modelled from the spec: the flag enum header
is not in src; the exact bit positions are immaterial, only the tests
(flags AND bit) are. -/
def DATABASE_INDEX_PROPERTY_FLAG_SIZE : Nat := 4

/-- Property-flag bit for ModificationTime.  Modelled from the spec, as
above. -/
def DATABASE_INDEX_PROPERTY_FLAG_MODIFICATION_TIME : Nat := 8

/-- One in-memory entry as the codec sees it.  Names are byte lists; C
strings cannot contain the byte 0, which theorems assume explicitly.
The parent field holds the position of the parent folder in the
name-sorted folder array (db_entry_get_idx of the parent after
update_folder_indices has refreshed every idx to its position), or none
for a root folder.  The scratch idx slot itself is represented by the
position of the entry in its block, per the claim (modulo idx
assignments). -/
structure DbEntry where
  etype : DatabaseEntryType
  name : List Nat
  size : Nat
  mtime : Nat
  parent : Option Nat
  db_index : Nat
deriving DecidableEq

/-- The wire form of one entry record: exactly the fields
save_entry_super_elements writes, in order.  The size and mtime fields are
present on the wire iff the corresponding property flag is set, which the
Option encodes.  The byte framing (u8, u64, u32 little-endian) is injective
given the flags, so records capture the stream. -/
structure SuperRecord where
  name_offset : Nat
  name_len : Nat
  name_chunk : List Nat
  size : Option Nat
  mtime : Option Nat
  parent_idx : Nat
deriving DecidableEq

/-- The loop of get_name_offset, with fuel = 255 - offset: advance while the
bytes agree, neither is NUL, and the offset is below 255. -/
def name_offset_go : List Nat → List Nat → Nat → Nat
| o :: os, n :: ns, fuel + 1 => if o = n ∧ o ≠ 0 then name_offset_go os ns fuel + 1 else 0
| _, _, _ => 0

/-- get_name_offset: length of the common prefix of the two names, capped at
255 (the offset is stored in a u8). -/
def get_name_offset (old new : List Nat) : Nat := name_offset_go old new 255

/-- save_entry_super_elements, at record granularity.  Mirrors the source:
name_len is the new name length minus the offset truncated to a u8;
the previous-name buffer is erased at the offset and the new suffix
appended; the name bytes written are taken from that buffer at the offset.
The takeWhile models reading the raw entry name as a C string. -/
def save_entry_super_elements (index_flags : Nat) (entry : DbEntry) (parent_idx : Nat)
    (previous_entry_name : List Nat) : SuperRecord × List Nat :=
  let new_entry_name := entry.name.takeWhile (fun b => b ≠ 0)
  let name_offset := get_name_offset previous_entry_name new_entry_name
  let name_len := (new_entry_name.length - name_offset) % 256
  let previous2 := previous_entry_name.take name_offset ++ new_entry_name.drop name_offset
  let name_chunk := if 0 < name_len then (previous2.drop name_offset).take name_len else []
  ({ name_offset := name_offset
     name_len := name_len
     name_chunk := name_chunk
     size := if index_flags &&& DATABASE_INDEX_PROPERTY_FLAG_SIZE ≠ 0 then some entry.size else none
     mtime :=
       if index_flags &&& DATABASE_INDEX_PROPERTY_FLAG_MODIFICATION_TIME ≠ 0 then some entry.mtime
       else none
     parent_idx := parent_idx },
   previous2)

/-- load_entry_super_elements_from_memory, at record granularity.  The
previous-name buffer is erased at name_offset; the name bytes read (only
when name_len is positive) are NUL-terminated and appended as a C string,
which the takeWhile models; then size and mtime are read iff the
corresponding flag is set.  The getD 0 is never reached on records
produced by the encoder under the same flags. -/
def load_entry_super_elements_from_memory (index_flags : Nat) (r : SuperRecord) (entry : DbEntry)
    (previous_entry_name : List Nat) : DbEntry × List Nat :=
  let previous2 := previous_entry_name.take r.name_offset ++
    (if 0 < r.name_len then r.name_chunk.takeWhile (fun b => b ≠ 0) else [])
  let e1 := { entry with name := previous2 }
  let e2 :=
    if index_flags &&& DATABASE_INDEX_PROPERTY_FLAG_SIZE ≠ 0 then { e1 with size := r.size.getD 0 }
    else e1
  let e3 :=
    if index_flags &&& DATABASE_INDEX_PROPERTY_FLAG_MODIFICATION_TIME ≠ 0 then
      { e2 with mtime := r.mtime.getD 0 }
    else e2
  (e3, previous2)

/-- The folder entries preallocated by db_file_load before decoding: type
folder, parent NULL; the uninitialised pool fields are modelled as 0. -/
def fresh_folder_entry : DbEntry :=
  { etype := DatabaseEntryType.folder, name := [], size := 0, mtime := 0, parent := none,
    db_index := 0 }

/-- The file entries allocated by load_files: type file; the uninitialised
pool fields are modelled as 0. -/
def fresh_file_entry : DbEntry :=
  { etype := DatabaseEntryType.file, name := [], size := 0, mtime := 0, parent := none,
    db_index := 0 }

/-- The loop body of save_folders: the u16 db_index preamble, then the super
elements with parent_idx the idx of the parent folder, or the own idx i
for a root (fsearch_database.c lines 1256 to 1272). -/
def save_folders_go (index_flags : Nat) : List DbEntry → Nat → List Nat → List (Nat × SuperRecord)
| [], _, _ => []
| e :: es, i, prev =>
  let parent_idx := match e.parent with | some p => p | Option.none => i
  let step := save_entry_super_elements index_flags e parent_idx prev
  (e.db_index, step.1) :: save_folders_go index_flags es (i + 1) step.2

/-- save_folders over the name-sorted folder array (positions are the idx
values refreshed by update_folder_indices). -/
def save_folders (index_flags : Nat) (folders : List DbEntry) : List (Nat × SuperRecord) :=
  save_folders_go index_flags folders 0 []

/-- The loop body of save_files (fsearch_database.c lines 1142 to 1154):
parent_idx is the idx of the parent folder.  A NULL parent would be a
programmer error in the C code (db_entry_get_idx dereferences it), so the
none branch is modelled as 0 and excluded by hypothesis in theorems. -/
def save_files_go (index_flags : Nat) : List DbEntry → List Nat → List SuperRecord
| [], _ => []
| e :: es, prev =>
  let parent_idx := match e.parent with | some p => p | Option.none => 0
  let step := save_entry_super_elements index_flags e parent_idx prev
  step.1 :: save_files_go index_flags es step.2

/-- save_files over the name-sorted file array. -/
def save_files (index_flags : Nat) (files : List DbEntry) : List SuperRecord :=
  save_files_go index_flags files []

/-- The loop body of load_folders (fsearch_database.c lines 862 to 885): the
db_index preamble is read and discarded (marked TODO unused in the
source), the super elements are decoded into the preallocated entry of
position i, and the parent is resolved: parent_idx equal to the own idx
means root (parent NULL), anything else is looked up in the preallocated
folder array of length nfolders (darray_get_item yields NULL out of
range). -/
def load_folders_go (index_flags : Nat) (nfolders : Nat) :
    List (Nat × SuperRecord) → Nat → List Nat → List DbEntry
| [], _, _ => []
| (_, r) :: rs, i, prev =>
  let step := load_entry_super_elements_from_memory index_flags r (fresh_folder_entry) prev
  let e2 :=
    if r.parent_idx ≠ i then
      { step.1 with parent := if r.parent_idx < nfolders then some r.parent_idx else none }
    else
      { step.1 with parent := none }
  e2 :: load_folders_go index_flags nfolders rs (i + 1) step.2

/-- load_folders over a folder block. -/
def load_folders (index_flags : Nat) (records : List (Nat × SuperRecord)) : List DbEntry :=
  load_folders_go index_flags records.length records 0 []

/-- The loop body of load_files (fsearch_database.c lines 922 to 937): a
fresh file entry per record, super elements decoded, parent resolved in
the folder array unconditionally. -/
def load_files_go (index_flags : Nat) (nfolders : Nat) :
    List SuperRecord → Nat → List Nat → List DbEntry
| [], _, _ => []
| r :: rs, i, prev =>
  let step := load_entry_super_elements_from_memory index_flags r (fresh_file_entry) prev
  let e2 := { step.1 with parent := if r.parent_idx < nfolders then some r.parent_idx else none }
  e2 :: load_files_go index_flags nfolders rs (i + 1) step.2

/-- load_files over a file block, given the folder count of the snapshot. -/
def load_files (index_flags : Nat) (nfolders : Nat) (records : List SuperRecord) : List DbEntry :=
  load_files_go index_flags nfolders records 0 []

/-- What decoding gives back of an entry: everything survives except that
size and mtime are only stored when the corresponding flag is set (the
decoder leaves the fresh-entry 0 otherwise) and the folder db_index is
read but discarded by the loader. -/
def decoded_projection (index_flags : Nat) (e : DbEntry) : DbEntry :=
  { e with
    size := if index_flags &&& DATABASE_INDEX_PROPERTY_FLAG_SIZE ≠ 0 then e.size else 0
    mtime :=
      if index_flags &&& DATABASE_INDEX_PROPERTY_FLAG_MODIFICATION_TIME ≠ 0 then e.mtime else 0
    db_index := 0 }

/-! ## Index store (FsearchDatabaseIndexStore) -/

/-- FsearchDatabaseIndexProperty.  Modelled from the spec: the enum header is
not part of src.  Name is 0 (it is the implicit primary block order in the
snapshot), the other sort keys follow, and None is the no-key marker; the
container arrays have one slot per enum member. -/
inductive DatabaseIndexProperty
| name
| path
| size
| modificationTime
| extensionProp
| noneProp
deriving DecidableEq, Fintype

/-- The members of the property enum in order; container loops in the C code
run over exactly these slots (0 up to NUM_DATABASE_INDEX_PROPERTIES). -/
def propertyList : List DatabaseIndexProperty :=
  [DatabaseIndexProperty.name, DatabaseIndexProperty.path, DatabaseIndexProperty.size,
   DatabaseIndexProperty.modificationTime, DatabaseIndexProperty.extensionProp,
   DatabaseIndexProperty.noneProp]

/-- An entries container, abstracted to the sequence of entries it holds
(entries are identified by a numeric id).  Modelled from the spec: the
container module is not in src; internal sharding and the sort order are
irrelevant to the claims about the store. -/
abbrev EntriesContainer := List Nat

/-- A cooperative cancellation token: none is a NULL GCancellable (never
cancelled), some k is a token that a concurrent caller trips at
observation point k.  Observation points are counted per
g_cancellable_is_cancelled read, in program order. -/
abbrev GCancellable := Option Nat

/-- g_cancellable_is_cancelled at observation time t. -/
def g_cancellable_is_cancelled (c : GCancellable) (t : Nat) : Bool :=
  match c with
  | Option.none => false
  | some k => k ≤ t

/-- One include descriptor.  Modelled from the spec: the include manager
module is not in src.  Besides its id, the include carries the files and
folders its root scan would produce (the scanner is external). -/
structure DbInclude where
  id : Nat
  files : List Nat
  folders : List Nat
deriving DecidableEq

/-- An include manager, abstracted to its ordered include list; the external
fsearch_database_include_manager_equal is modelled as structural
equality. -/
abbrev IncludeManager := List DbInclude

/-- An exclude manager, opaque to every claim; equality models
fsearch_database_exclude_manager_equal. -/
abbrev ExcludeManager := Nat

/-- One per-root index (FsearchDatabaseIndex), reduced to the fields the
store reads: id, flags, and the scanned entry sets. -/
structure DbIndex where
  id : Nat
  flags : Nat
  files : List Nat
  folders : List Nat
deriving DecidableEq

/-- FsearchDatabaseIndexStore, reduced to the fields the claims are about.
The two container arrays are indexed by the property enum.  The event
callback and the two background thread contexts carry no claim-relevant
state and are omitted. -/
structure IndexStore where
  indices : List DbIndex
  file_container : DatabaseIndexProperty → Option EntriesContainer
  folder_container : DatabaseIndexProperty → Option EntriesContainer
  include_manager : IncludeManager
  exclude_manager : ExcludeManager
  flags : Nat
  is_sorted : Bool
  running : Bool
deriving DecidableEq

/-- index_store_new: zero-initialised containers, empty index list,
is_sorted and running false. -/
def index_store_new (include_manager : IncludeManager) (exclude_manager : ExcludeManager)
    (flags : Nat) : IndexStore :=
  { indices := []
    file_container := fun _ => none
    folder_container := fun _ => none
    include_manager := include_manager
    exclude_manager := exclude_manager
    flags := flags
    is_sorted := false
    running := false }

/-- sorted_entries_free: clear every container slot of both arrays. -/
def sorted_entries_free (self : IndexStore) : IndexStore :=
  { self with
    file_container := fun _ => none
    folder_container := fun _ => none }

/-- has_flag: the index flags must be a superset of the store flags. -/
def has_flag (self : IndexStore) (index : DbIndex) : Bool :=
  (self.flags &&& index.flags) == self.flags

/-- index_store_has_index_with_same_id. -/
def index_store_has_index_with_same_id (self : IndexStore) (index : DbIndex) : Bool :=
  self.indices.any (fun stored => stored.id == index.id)

/-- index_store_has_container: pointer-identity check against every slot,
modelled as structural membership of the container value. -/
def index_store_has_container (self : IndexStore) (container : EntriesContainer) : Bool :=
  propertyList.any
    (fun i => self.folder_container i == some container || self.file_container i == some container)

/-- index_store_get_num_fast_sort_indices: count the slots where both the
folder and the file container exist. -/
def index_store_get_num_fast_sort_indices (self : IndexStore) : Nat :=
  propertyList.countP
    (fun i => (self.folder_container i).isSome && (self.file_container i).isSome)

/-- The number of slots with a non-null folder container (left side of the
claimed balance invariant). -/
def num_folder_fast_containers (self : IndexStore) : Nat :=
  propertyList.countP (fun i => (self.folder_container i).isSome)

/-- The number of slots with a non-null file container (right side of the
claimed balance invariant). -/
def num_file_fast_containers (self : IndexStore) : Nat :=
  propertyList.countP (fun i => (self.file_container i).isSome)

/-- fsearch_database_entries_container_insert.  Modelled from the spec: the
sorted position is internal to the external container module; the
container keeps the multiset of entries. -/
def fsearch_database_entries_container_insert (c : EntriesContainer) (entry : Nat) :
    EntriesContainer :=
  c ++ [entry]

/-- fsearch_database_entries_container_steal: remove the entry if present.
Modelled from the spec, as above. -/
def fsearch_database_entries_container_steal (c : EntriesContainer) (entry : Nat) :
    EntriesContainer :=
  c.erase entry

/-- index_store_add_entries: insert every entry into every non-null container
of the matching type (fsearch_database.c lines 286 to 312). -/
def index_store_add_entries (self : IndexStore) (entries : List Nat) (is_dir : Bool) :
    IndexStore :=
  if entries.length = 0 then self
  else if is_dir then
    { self with
      folder_container := fun i =>
        (self.folder_container i).map
          (fun c => entries.foldl fsearch_database_entries_container_insert c) }
  else
    { self with
      file_container := fun i =>
        (self.file_container i).map
          (fun c => entries.foldl fsearch_database_entries_container_insert c) }

/-- index_store_remove_folders: steal every given folder from every non-null
folder container.  The store asserts that the index belongs to it; the
assertion failure aborts the process, modelled as returning the state
unchanged (no observable next state). -/
def index_store_remove_folders (self : IndexStore) (folders : List Nat) (index : DbIndex) :
    IndexStore :=
  if folders.length = 0 then self
  else if !(self.indices.contains index) then self
  else
    { self with
      folder_container := fun i =>
        (self.folder_container i).map
          (fun c => folders.foldl fsearch_database_entries_container_steal c) }

/-- index_store_remove_files: steal every given file from every non-null file
container; same assertion convention as index_store_remove_folders. -/
def index_store_remove_files (self : IndexStore) (files : List Nat) (index : DbIndex) :
    IndexStore :=
  if files.length = 0 then self
  else if !(self.indices.contains index) then self
  else
    { self with
      file_container := fun i =>
        (self.file_container i).map
          (fun c => files.foldl fsearch_database_entries_container_steal c) }

/-- index_store_remove_entry: steal one entry (NULL is a no-op) from every
non-null container of its type. -/
def index_store_remove_entry (self : IndexStore) (entry : Option Nat)
    (entry_type : DatabaseEntryType) (index : DbIndex) : IndexStore :=
  match entry with
  | Option.none => self
  | some e =>
    if !(self.indices.contains index) then self
    else if entry_type = DatabaseEntryType.folder then
      { self with
        folder_container := fun i =>
          (self.folder_container i).map (fun c => fsearch_database_entries_container_steal c e) }
    else
      { self with
        file_container := fun i =>
          (self.file_container i).map (fun c => fsearch_database_entries_container_steal c e) }

/-- fsearch_database_index_new followed by fsearch_database_index_scan for one
include.  Modelled from the spec: the per-root index module and the
scanner are external; scan observes the cancellation token once and fails
when it has tripped. -/
def fsearch_database_index_scan (store_flags : Nat) (inc : DbInclude) (c : GCancellable)
    (t : Nat) : Option DbIndex :=
  if g_cancellable_is_cancelled c t then none
  else some { id := inc.id, flags := store_flags, files := inc.files, folders := inc.folders }

/-- The include loop of index_store_start (lines 510 to 523): build and scan
an index per include, keeping the successful ones; returns the final
observation time as well. -/
def scan_includes (store_flags : Nat) : List DbInclude → GCancellable → Nat →
    List DbIndex × Nat
| [], _, t => ([], t)
| inc :: rest, c, t =>
  let scanned := fsearch_database_index_scan store_flags inc c t
  let tail := scan_includes store_flags rest c (t + 1)
  (match scanned with
   | some index => index :: tail.1
   | Option.none => tail.1, tail.2)

/-- The merge loop of index_store_start (lines 530 to 546): skip indices
whose id is already present or whose flags are insufficient, append the
rest to the store, accumulate their files and folders, and clear
is_sorted for each merged index. -/
def merge_indices : IndexStore → List DbIndex → List Nat → List Nat →
    IndexStore × List Nat × List Nat
| self, [], store_files, store_folders => (self, store_files, store_folders)
| self, index :: rest, store_files, store_folders =>
  if index_store_has_index_with_same_id self index || !(has_flag self index) then
    merge_indices self rest store_files store_folders
  else
    merge_indices
      { self with indices := self.indices ++ [index], is_sorted := false }
      rest (store_files ++ index.files) (store_folders ++ index.folders)

/-- fsearch_database_entries_container_new.  Modelled from the spec: the
container module is not in src; per spec 4.1 the build fails (NULL) when
the cancellation token trips, observing the token once at time t.  The
sort order is internal to the external module, so the container is the
entry sequence. -/
def fsearch_database_entries_container_new (entries : List Nat) (c : GCancellable) (t : Nat) :
    Option EntriesContainer :=
  if g_cancellable_is_cancelled c t then none else some entries

/-- The ten container builds of index_store_start (lines 549 to 619), in
source order (folder then file for Name, Path, Size, ModificationTime,
Extension), each observing the token once; then is_sorted is set. -/
def build_sorted_containers (self : IndexStore) (store_files store_folders : List Nat)
    (c : GCancellable) (t : Nat) : IndexStore :=
  { self with
    folder_container :=
      Function.update
        (Function.update
          (Function.update
            (Function.update
              (Function.update self.folder_container DatabaseIndexProperty.name
                (fsearch_database_entries_container_new store_folders c t))
              DatabaseIndexProperty.path
              (fsearch_database_entries_container_new store_folders c (t + 2)))
            DatabaseIndexProperty.size
            (fsearch_database_entries_container_new store_folders c (t + 4)))
          DatabaseIndexProperty.modificationTime
          (fsearch_database_entries_container_new store_folders c (t + 6)))
        DatabaseIndexProperty.extensionProp
        (fsearch_database_entries_container_new store_folders c (t + 8))
    file_container :=
      Function.update
        (Function.update
          (Function.update
            (Function.update
              (Function.update self.file_container DatabaseIndexProperty.name
                (fsearch_database_entries_container_new store_files c (t + 1)))
              DatabaseIndexProperty.path
              (fsearch_database_entries_container_new store_files c (t + 3)))
            DatabaseIndexProperty.size
            (fsearch_database_entries_container_new store_files c (t + 5)))
          DatabaseIndexProperty.modificationTime
          (fsearch_database_entries_container_new store_files c (t + 7)))
        DatabaseIndexProperty.extensionProp
        (fsearch_database_entries_container_new store_files c (t + 9))
    is_sorted := true }

/-- index_store_start (fsearch_database.c lines 502 to 631).  Returns the new
store state together with the final observation time of the cancellation
token.  A running store returns immediately.  The token is observed once
per include scan, once at line 524 (before any store mutation), once per
container build, and once at line 622; when the last check sees the token
tripped, every container is freed and every index removed. -/
def index_store_start (self : IndexStore) (c : GCancellable) : IndexStore × Nat :=
  if self.running then (self, 0)
  else
    let scanned := scan_includes self.flags self.include_manager c 0
    if g_cancellable_is_cancelled c scanned.2 then (self, scanned.2 + 1)
    else
      let merged := merge_indices self scanned.1 [] []
      let s2 := build_sorted_containers merged.1 merged.2.1 merged.2.2 c (scanned.2 + 1)
      if g_cancellable_is_cancelled c (scanned.2 + 11) then
        ({ sorted_entries_free s2 with indices := [] }, scanned.2 + 12)
      else
        ({ s2 with running := true }, scanned.2 + 12)

/-- The observable states of an index store: a fresh store, a store after a
completed or cancelled start, and a store after the entry additions and
removals that the index event callback performs. -/
inductive ReachableStore : IndexStore → Prop
| new : ∀ inc exc flags, ReachableStore (index_store_new inc exc flags)
| start : ∀ s c, ReachableStore s → ReachableStore (index_store_start s c).1
| add : ∀ s entries is_dir, ReachableStore s →
    ReachableStore (index_store_add_entries s entries is_dir)
| removeFolders : ∀ s folders index, ReachableStore s →
    ReachableStore (index_store_remove_folders s folders index)
| removeFiles : ∀ s files index, ReachableStore s →
    ReachableStore (index_store_remove_files s files index)
| removeEntry : ∀ s entry entry_type index, ReachableStore s →
    ReachableStore (index_store_remove_entry s entry entry_type index)

/-! ## Search views and selection -/

/-- An entry as a search view sees it: an identity plus its type (the
selection code dispatches on db_entry_get_type). -/
structure SearchEntry where
  id : Nat
  etype : DatabaseEntryType
deriving DecidableEq

/-- FsearchDatabaseSearchView, reduced to the fields the claims are about
(query, sort_order and secondary order are carried by the external query
and sort modules and do not enter any claim). -/
structure SearchView where
  folder_container : Option (List SearchEntry)
  file_container : Option (List SearchEntry)
  sort_type : SortType
  file_selection : List SearchEntry
  folder_selection : List SearchEntry
deriving DecidableEq

/-- 2 to the 32: uint32 arithmetic is reduced modulo this. -/
def U32 : Nat := 4294967296

/-- get_num_search_file_results: 0 when the view or its file container is
NULL, else the container count. -/
def get_num_search_file_results (view : SearchView) : Nat :=
  match view.file_container with
  | some c => c.length
  | Option.none => 0

/-- get_num_search_folder_results.  The source tests view->file_container for
NULL here (line 1804) although it then counts the folder container;
counting a NULL folder container yields 0 (guard in the external
container module). -/
def get_num_search_folder_results (view : SearchView) : Nat :=
  match view.file_container, view.folder_container with
  | some _, some c => c.length
  | _, _ => 0

/-- get_idx_for_sort_type: invert the position for descending views.  The
expression num_folders + num_files - (idx + 1) is computed in uint32
arithmetic, hence the explicit reduction modulo 2 to the 32. -/
def get_idx_for_sort_type (idx num_files num_folders : Nat) (sort_type : SortType) : Nat :=
  if sort_type = SortType.descending then
    (num_folders + num_files + U32 - ((idx + 1) % U32)) % U32
  else idx

/-- fsearch_database_entries_container_get_entry: positional get.  Modelled
from the spec (external container module). -/
def fsearch_database_entries_container_get_entry (c : List SearchEntry) (i : Nat) :
    Option SearchEntry :=
  c.get? i

/-- get_entry_for_idx (fsearch_database.c lines 1849 to 1870): NULL unless
both containers exist; fold the containers as folders then files after
applying the sort-direction transform. -/
def get_entry_for_idx (view : SearchView) (idx : Nat) : Option SearchEntry :=
  match view.folder_container, view.file_container with
  | Option.none, _ => none
  | _, Option.none => none
  | some folders, some files =>
    let num_folders := get_num_search_folder_results view
    let num_files := get_num_search_file_results view
    let i := get_idx_for_sort_type idx num_files num_folders view.sort_type
    if i < num_folders then fsearch_database_entries_container_get_entry folders i
    else if i - num_folders < num_files then
      fsearch_database_entries_container_get_entry files (i - num_folders)
    else none

/-- fsearch_selection_select: add to the selection set.  Modelled from the
spec: the selection module (a GHashTable set) is not in src. -/
def fsearch_selection_select (sel : List SearchEntry) (entry : SearchEntry) :
    List SearchEntry :=
  if sel.contains entry then sel else entry :: sel

/-- fsearch_selection_select_toggle: flip membership.  Modelled from the
spec, as above. -/
def fsearch_selection_select_toggle (sel : List SearchEntry) (entry : SearchEntry) :
    List SearchEntry :=
  if sel.contains entry then sel.erase entry else entry :: sel

/-- fsearch_selection_select_all over one container shard.  Modelled from the
spec, as above. -/
def fsearch_selection_select_all (sel : List SearchEntry) (entries : List SearchEntry) :
    List SearchEntry :=
  entries.foldl fsearch_selection_select sel

/-- fsearch_selection_invert over one container shard.  Modelled from the
spec, as above. -/
def fsearch_selection_invert (sel : List SearchEntry) (entries : List SearchEntry) :
    List SearchEntry :=
  entries.foldl fsearch_selection_select_toggle sel

/-- Dispatch of a single-entry selection on the entry type (the file
selection for files, the folder selection otherwise). -/
def select_entry (view : SearchView) (entry : SearchEntry) : SearchView :=
  if entry.etype = DatabaseEntryType.file then
    { view with file_selection := fsearch_selection_select view.file_selection entry }
  else
    { view with folder_selection := fsearch_selection_select view.folder_selection entry }

/-- Dispatch of a single-entry toggle on the entry type. -/
def toggle_entry (view : SearchView) (entry : SearchEntry) : SearchView :=
  if entry.etype = DatabaseEntryType.file then
    { view with file_selection := fsearch_selection_select_toggle view.file_selection entry }
  else
    { view with
      folder_selection := fsearch_selection_select_toggle view.folder_selection entry }

/-- The loop body shared by select_range and toggle_range: iterate i from the
start to the end index, skipping positions without an entry.  The int32
loop variable is converted to uint32 by get_entry_for_idx, hence the
reduction modulo 2 to the 32.  The iteration count is the step argument
of the recursion. -/
def range_go (f : SearchView → SearchEntry → SearchView) :
    SearchView → Int → Nat → SearchView
| view, _, 0 => view
| view, i, steps + 1 =>
  let view2 :=
    match get_entry_for_idx view (Int.toNat (i % (U32 : Int))) with
    | Option.none => view
    | some entry => f view entry
  range_go f view2 (i + 1) steps

/-- select_range (fsearch_database.c lines 2089 to 2109): swap the endpoints
when given in descending order, then select every present entry in the
inclusive range. -/
def select_range (view : SearchView) (start_idx end_idx : Int) : SearchView :=
  let s := if start_idx > end_idx then end_idx else start_idx
  let e := if start_idx > end_idx then start_idx else end_idx
  range_go select_entry view s (Int.toNat (e - s + 1))

/-- toggle_range (fsearch_database.c lines 2067 to 2087): same endpoint
normalisation, toggling instead of selecting. -/
def toggle_range (view : SearchView) (start_idx end_idx : Int) : SearchView :=
  let s := if start_idx > end_idx then end_idx else start_idx
  let e := if start_idx > end_idx then start_idx else end_idx
  range_go toggle_entry view s (Int.toNat (e - s + 1))

/-! ## Engine state and work-queue handlers -/

/-- The events the handlers under scrutiny emit (the claim-relevant subset of
FsearchDatabaseEventType). -/
inductive DbEvent
| loadStarted
| loadFinished
| scanStarted
| scanFinished
| selectionChanged (view_id : Nat)
deriving DecidableEq

/-- FsearchResult (fsearch_database2.h lines 18 to 24). -/
inductive FsearchResult
| success
| failed
| busy
| unknownSearchView
| entryNotFound
deriving DecidableEq

/-- The engine state guarded by the store mutex: the current store, the
property flags, and the registered search views keyed by view id. -/
structure Database where
  store : Option IndexStore
  flags : Nat
  search_results : List (Nat × SearchView)
deriving DecidableEq

/-- get_search_view: hash-table lookup by view id. -/
def get_search_view (self : Database) (view_id : Nat) : Option SearchView :=
  (self.search_results.find? (fun p => p.1 == view_id)).map Prod.snd

/-- In-place mutation of a registered view, as the C code performs through
the view pointer. -/
def update_search_view (self : Database) (view_id : Nat) (view : SearchView) : Database :=
  { self with
    search_results :=
      self.search_results.map (fun p => if p.1 == view_id then (p.1, view) else p) }

/-- get_include_manager: the include manager of the current store, if any. -/
def get_include_manager (self : Database) : Option IncludeManager :=
  self.store.map IndexStore.include_manager

/-- get_exclude_manager: the exclude manager of the current store, if any. -/
def get_exclude_manager (self : Database) : Option ExcludeManager :=
  self.store.map IndexStore.exclude_manager

/-- The payload of a Scan work item. -/
structure ScanWork where
  include_manager : IncludeManager
  exclude_manager : ExcludeManager
  flags : Nat
deriving DecidableEq

/-- scan_database (fsearch_database.c lines 2396 to 2438).  When a store
exists and both the include and the exclude manager equal the current
ones, the handler returns before emitting anything (the work item flags
are not compared).  Otherwise it emits scan-started, builds and starts a
new store with a NULL cancellable, swaps it in, adopts the work flags,
clears every search view, starts monitoring (stateless here) and emits
scan-finished. -/
def scan_database (self : Database) (work : ScanWork) : Database × List DbEvent :=
  if self.store.isSome ∧ get_include_manager self = some work.include_manager
      ∧ get_exclude_manager self = some work.exclude_manager then
    (self, [])
  else
    let store0 := index_store_new work.include_manager work.exclude_manager work.flags
    let store1 := (index_store_start store0 Option.none).1
    ({ self with flags := work.flags, store := some store1, search_results := [] },
     [DbEvent.scanStarted, DbEvent.scanFinished])

/-- load_database_from_file (fsearch_database.c lines 2440 to 2469).  The
handler emits load-started; the call to db_file_load is commented out in
the source, so res is the literal false and the local store stays NULL;
the install branch is therefore dead and the fallback branch (default
include and exclude managers) is itself commented out; finally it emits
load-finished. -/
def load_database_from_file (self : Database) : Database × List DbEvent :=
  let store : Option IndexStore := none
  let res := false
  let self2 := if res then { self with store := store } else self
  (self2, [DbEvent.loadStarted, DbEvent.loadFinished])

/-- FsearchSelectionType. -/
inductive FsearchSelectionType
| clear
| all
| invert
| selectOne
| toggleOne
| selectRange
| toggleRange
deriving DecidableEq

/-- The payload of a ModifySelection work item. -/
structure ModifySelectionWork where
  view_id : Nat
  selection_type : FsearchSelectionType
  start_idx : Int
  end_idx : Int
deriving DecidableEq

/-- modify_selection (fsearch_database.c lines 2262 to 2344): return silently
when the view id is unknown or when no entry exists at the start index
(the int32 start index is converted to uint32 for the lookup); otherwise
apply the selection mutation and emit selection-changed. -/
def modify_selection (self : Database) (work : ModifySelectionWork) :
    Database × List DbEvent :=
  match get_search_view self work.view_id with
  | Option.none => (self, [])
  | some view =>
    match get_entry_for_idx view (Int.toNat (work.start_idx % (U32 : Int))) with
    | Option.none => (self, [])
    | some entry =>
      let view2 :=
        match work.selection_type with
        | FsearchSelectionType.clear =>
          { view with file_selection := [], folder_selection := [] }
        | FsearchSelectionType.all =>
          { view with
            file_selection :=
              fsearch_selection_select_all view.file_selection (view.file_container.getD [])
            folder_selection :=
              fsearch_selection_select_all view.folder_selection
                (view.folder_container.getD []) }
        | FsearchSelectionType.invert =>
          { view with
            file_selection :=
              fsearch_selection_invert view.file_selection (view.file_container.getD [])
            folder_selection :=
              fsearch_selection_invert view.folder_selection (view.folder_container.getD []) }
        | FsearchSelectionType.selectOne => select_entry view entry
        | FsearchSelectionType.toggleOne => toggle_entry view entry
        | FsearchSelectionType.selectRange => select_range view work.start_idx work.end_idx
        | FsearchSelectionType.toggleRange => toggle_range view work.start_idx work.end_idx
      (update_search_view self work.view_id view2,
       [DbEvent.selectionChanged work.view_id])

/-- get_entry_info_non_blocking (fsearch_database.c lines 1887 to 1910),
reduced to its result code: UnknownSearchView when the view id is not
registered, EntryNotFound when get_entry_for_idx yields NULL, Success
otherwise (the info object is synthesised from the entry). -/
def get_entry_info_non_blocking (self : Database) (view_id idx : Nat) : FsearchResult :=
  match get_search_view self view_id with
  | Option.none => FsearchResult.unknownSearchView
  | some view =>
    match get_entry_for_idx view idx with
    | Option.none => FsearchResult.entryNotFound
    | some _ => FsearchResult.success

/-- Validity of a folder record parent at block position j: a root has no
parent; a child points at another folder of the block (darray range) and
never at itself (a self-reference is the on-disk root marker). -/
def folder_parent_ok (nfolders j : Nat) (parent : Option Nat) : Bool :=
  match parent with
  | Option.none => true
  | some p => decide (p < nfolders) && decide (p ≠ j)

/-- Validity of a file parent: every file has a parent folder inside the
folder block (a NULL parent would be dereferenced by save_files). -/
def file_parent_ok (nfolders : Nat) (parent : Option Nat) : Bool :=
  match parent with
  | Option.none => false
  | some p => decide (p < nfolders)

/-! ## Theorems -/

/-- Claim C1: the LoadFromFile handler is required to decode the snapshot
into a fresh store, install it on success, fall back to a default empty
store on failure, and emit load-started then load-finished.  The source
as written emits the two events but never decodes or installs anything:
the db_file_load call is commented out, res is the literal false, and the
default-manager fallback is commented out as well, so the handler leaves
the engine state untouched for every input state. -/
theorem fsdb_c1_load_handler_inert (self : Database) :
    load_database_from_file self = (self, [DbEvent.loadStarted, DbEvent.loadFinished]) := rfl

/-- Claim C3, counterexample: a header with magic FSDB, major version 1 and
minor version 1 is rejected by load_header, although the claim says every
minor version up to 1 is accepted (DATABASE_MINOR_VERSION is 0 in the
source). -/
theorem fsdb_c3_counterexample :
    load_header (DATABASE_MAGIC_NUMBER ++ [DATABASE_MAJOR_VERSION, 1]) = none := by
  decide

/-- Claim C3, amended: a snapshot header with magic FSDB is accepted by
load_header exactly when the major version equals 1 and the minor version
is 0 (the supported minor version in the source is 0, not 1). -/
theorem fsdb_c3_header_amended (majorver minorver : Nat) (rest : List Nat) :
    (load_header (DATABASE_MAGIC_NUMBER ++ majorver :: minorver :: rest)).isSome ↔
      (majorver = DATABASE_MAJOR_VERSION ∧ minorver = 0) := by
  by_cases hmaj : majorver = 1
  · by_cases hmin : minorver = 0
    · subst hmaj
      subst hmin
      simp [load_header, read_bytes, DATABASE_MAGIC_NUMBER, DATABASE_MAJOR_VERSION,
        DATABASE_MINOR_VERSION, Option.map_some']
    · subst hmaj
      simp [load_header, read_bytes, DATABASE_MAGIC_NUMBER, DATABASE_MAJOR_VERSION,
        DATABASE_MINOR_VERSION, Option.map_some', hmin, Nat.pos_of_ne_zero hmin]
  · simp [load_header, read_bytes, DATABASE_MAGIC_NUMBER, DATABASE_MAJOR_VERSION,
      DATABASE_MINOR_VERSION, Option.map_some', hmaj]

/-- Claim C9: select_range and toggle_range accept their endpoints in either
order; the handler swaps them so that the smaller is the start, hence
both orders produce identical selection state. -/
theorem fsdb_c9_range_endpoint_order (view : SearchView) (a b : Int) :
    select_range view a b = select_range view b a ∧
      toggle_range view a b = toggle_range view b a := by
  rcases lt_trichotomy a b with h | h | h
  · constructor <;>
      simp [select_range, toggle_range, h, lt_asymm h]
  · subst h
    exact ⟨rfl, rfl⟩
  · constructor <;>
      simp [select_range, toggle_range, h, lt_asymm h]

/-- Claim C10: a ModifySelection work item addressed to a registered view
whose start index does not resolve to an entry returns before the switch
on the selection kind: the engine state is unchanged and no
selection-changed event is emitted, for every selection kind. -/
theorem fsdb_c10_modify_selection_early_return (self : Database) (work : ModifySelectionWork)
    (view : SearchView) (hview : get_search_view self work.view_id = some view)
    (hentry : get_entry_for_idx view (Int.toNat (work.start_idx % (U32 : Int))) = none) :
    modify_selection self work = (self, []) := by
  simp only [modify_selection, hview, hentry]

/-- Claim C10, witness: a registered view with empty result containers and a
Clear request at start index 0 leaves the engine untouched and silent. -/
theorem fsdb_c10_modify_selection_early_return_witness :
    modify_selection
      { store := none, flags := 0,
        search_results :=
          [(7, { folder_container := some [], file_container := some [],
                 sort_type := SortType.ascending, file_selection := [],
                 folder_selection := [] })] }
      { view_id := 7, selection_type := FsearchSelectionType.clear, start_idx := 0,
        end_idx := 0 } =
      ({ store := none, flags := 0,
         search_results :=
           [(7, { folder_container := some [], file_container := some [],
                  sort_type := SortType.ascending, file_selection := [],
                  folder_selection := [] })] }, []) :=
  fsdb_c10_modify_selection_early_return _ _
    { folder_container := some [], file_container := some [],
      sort_type := SortType.ascending, file_selection := [], folder_selection := [] }
    (by decide) (by decide)

/-- Claim C6: with both containers present, get_entry_for_idx folds the view
as folders followed by files; an ascending view returns the element at
the requested position, a descending view the element at the mirrored
position F + N - 1 - idx.  The uint32 hypothesis keeps the descending
index arithmetic below the wrap. -/
theorem fsdb_c6_get_entry_fold (view : SearchView) (folders files : List SearchEntry)
    (idx : Nat) (hfo : view.folder_container = some folders)
    (hfi : view.file_container = some files)
    (hidx : idx < folders.length + files.length)
    (hsz : folders.length + files.length < U32) :
    get_entry_for_idx view idx =
      (folders ++ files).get?
        (if view.sort_type = SortType.descending then
          folders.length + files.length - 1 - idx
        else idx) := by
  have hnum_fo : get_num_search_folder_results view = folders.length := by
    simp [get_num_search_folder_results, hfo, hfi]
  have hnum_fi : get_num_search_file_results view = files.length := by
    simp [get_num_search_file_results, hfi]
  rcases hst : view.sort_type with _ | _
  · simp only [get_entry_for_idx, hfo, hfi, hnum_fo, hnum_fi, get_idx_for_sort_type, hst,
      reduceCtorEq, reduceIte, fsearch_database_entries_container_get_entry]
    by_cases hf : idx < folders.length
    · rw [if_pos hf, List.get?_append hf]
    · rw [if_neg hf, if_pos (by omega), List.get?_append_right (by omega)]
  · have hmod : (idx + 1) % U32 = idx + 1 := Nat.mod_eq_of_lt (by omega)
    have hival : (folders.length + files.length + U32 - (idx + 1)) % U32 =
        folders.length + files.length - 1 - idx := by
      have h1 : folders.length + files.length + U32 - (idx + 1) =
          U32 + (folders.length + files.length - 1 - idx) := by omega
      rw [h1, Nat.add_mod_left, Nat.mod_eq_of_lt (by omega)]
    simp only [get_entry_for_idx, hfo, hfi, hnum_fo, hnum_fi, get_idx_for_sort_type, hst,
      reduceIte, hmod, hival, fsearch_database_entries_container_get_entry]
    by_cases hf : folders.length + files.length - 1 - idx < folders.length
    · rw [if_pos hf, List.get?_append hf]
    · rw [if_neg hf, if_pos (by omega), List.get?_append_right (by omega)]

/-- Claim C6, witness: the spec scenario of three files sorted descending;
position 0 resolves to the mirrored position 2 of the folded sequence. -/
theorem fsdb_c6_get_entry_fold_witness :
    get_entry_for_idx
      { folder_container := some [], sort_type := SortType.descending,
        file_container :=
          some [{ id := 10, etype := DatabaseEntryType.file },
                { id := 11, etype := DatabaseEntryType.file },
                { id := 12, etype := DatabaseEntryType.file }],
        file_selection := [], folder_selection := [] } 0 =
      (([] : List SearchEntry) ++
          ([{ id := 10, etype := DatabaseEntryType.file },
            { id := 11, etype := DatabaseEntryType.file },
            { id := 12, etype := DatabaseEntryType.file }] : List SearchEntry)).get?
        (if ({ folder_container := some [], sort_type := SortType.descending,
               file_container :=
                 some [{ id := 10, etype := DatabaseEntryType.file },
                       { id := 11, etype := DatabaseEntryType.file },
                       { id := 12, etype := DatabaseEntryType.file }],
               file_selection := [], folder_selection := [] } : SearchView).sort_type =
            SortType.descending then
          ([] : List SearchEntry).length +
              ([{ id := 10, etype := DatabaseEntryType.file },
                { id := 11, etype := DatabaseEntryType.file },
                { id := 12, etype := DatabaseEntryType.file }] : List SearchEntry).length - 1 - 0
        else 0) :=
  fsdb_c6_get_entry_fold _ _ _ 0 rfl rfl (by decide) (by decide)

/-- Claim C7: an index at or past the end of the folded result set yields no
entry for either sort direction (in the descending case the uint32
subtraction wraps to a position past both containers), and item-info
retrieval for that index on a registered view reports EntryNotFound. -/
theorem fsdb_c7_out_of_range (self : Database) (view_id : Nat) (view : SearchView) (idx : Nat)
    (hlook : get_search_view self view_id = some view)
    (hidx : get_num_search_folder_results view + get_num_search_file_results view ≤ idx)
    (hu : idx < U32)
    (hsz : get_num_search_folder_results view + get_num_search_file_results view < U32) :
    get_entry_for_idx view idx = none ∧
      get_entry_info_non_blocking self view_id idx = FsearchResult.entryNotFound := by
  have hmain : get_entry_for_idx view idx = none := by
    rcases hfo : view.folder_container with _ | folders
    · simp [get_entry_for_idx, hfo]
    · rcases hfi : view.file_container with _ | files
      · simp [get_entry_for_idx, hfo, hfi]
      · have hnum_fo : get_num_search_folder_results view = folders.length := by
          simp [get_num_search_folder_results, hfo, hfi]
        have hnum_fi : get_num_search_file_results view = files.length := by
          simp [get_num_search_file_results, hfi]
        rw [hnum_fo, hnum_fi] at hidx hsz
        rcases hst : view.sort_type with _ | _
        · simp only [get_entry_for_idx, hfo, hfi, hnum_fo, hnum_fi, get_idx_for_sort_type,
            hst, reduceCtorEq, reduceIte]
          rw [if_neg (by omega), if_neg (by omega)]
        · simp only [U32] at hu hsz
          simp only [get_entry_for_idx, hfo, hfi, hnum_fo, hnum_fi, get_idx_for_sort_type,
            hst, reduceIte, U32]
          rw [if_neg (by omega), if_neg (by omega)]
  refine ⟨hmain, ?_⟩
  simp [get_entry_info_non_blocking, hlook, hmain]

/-- Claim C7, witness: a registered view with one folder and one file result;
index 2 = F + N yields no entry and EntryNotFound. -/
theorem fsdb_c7_out_of_range_witness :
    get_entry_for_idx
      { folder_container := some [{ id := 1, etype := DatabaseEntryType.folder }],
        file_container := some [{ id := 2, etype := DatabaseEntryType.file }],
        sort_type := SortType.descending, file_selection := [], folder_selection := [] } 2 =
        none ∧
      get_entry_info_non_blocking
        { store := none, flags := 0,
          search_results :=
            [(3, { folder_container := some [{ id := 1, etype := DatabaseEntryType.folder }],
                   file_container := some [{ id := 2, etype := DatabaseEntryType.file }],
                   sort_type := SortType.descending, file_selection := [],
                   folder_selection := [] })] } 3 2 = FsearchResult.entryNotFound :=
  fsdb_c7_out_of_range _ 3 _ 2 (by decide) (by decide) (by decide) (by decide)

/-- The merge loop only touches the index list and the is_sorted flag; every
other store field passes through unchanged. -/
theorem merge_indices_fields : ∀ (l : List DbIndex) (s : IndexStore) (fs fos : List Nat),
    (merge_indices s l fs fos).1.include_manager = s.include_manager ∧
    (merge_indices s l fs fos).1.exclude_manager = s.exclude_manager ∧
    (merge_indices s l fs fos).1.folder_container = s.folder_container ∧
    (merge_indices s l fs fos).1.file_container = s.file_container ∧
    (merge_indices s l fs fos).1.running = s.running ∧
    (merge_indices s l fs fos).1.flags = s.flags
| [], s, fs, fos => ⟨rfl, rfl, rfl, rfl, rfl, rfl⟩
| index :: rest, s, fs, fos => by
  unfold merge_indices
  by_cases h : (index_store_has_index_with_same_id s index || !(has_flag s index)) = true
  · rw [if_pos h]
    exact merge_indices_fields rest s fs fos
  · rw [if_neg h]
    exact merge_indices_fields rest
      { s with indices := s.indices ++ [index], is_sorted := false }
      (fs ++ index.files) (fos ++ index.folders)

/-- index_store_start never changes the include or the exclude manager of the
store it runs on. -/
theorem index_store_start_managers (s : IndexStore) (c : GCancellable) :
    (index_store_start s c).1.include_manager = s.include_manager ∧
    (index_store_start s c).1.exclude_manager = s.exclude_manager := by
  unfold index_store_start
  dsimp only
  split
  · exact ⟨rfl, rfl⟩
  · split
    · exact ⟨rfl, rfl⟩
    · obtain ⟨h1, h2, _, _, _, _⟩ :=
        merge_indices_fields (scan_includes s.flags s.include_manager c 0).1 s [] []
      split
      · exact ⟨h1, h2⟩
      · exact ⟨h1, h2⟩

/-- Claim C4, counterexample: a Scan work item whose include and exclude
managers equal the current ones but whose flags differ from the current
flags is treated as a no-op by scan_database (state unchanged, no
scan-started or scan-finished emitted), although the claim requires a
rebuild with one event pair whenever any part of the configuration,
flags included, differs. -/
theorem fsdb_c4_counterexample :
    (scan_database { store := some (index_store_new [] 0 0), flags := 0, search_results := [] }
        { include_manager := [], exclude_manager := 0, flags := 1 }).2 = [] ∧
      (scan_database { store := some (index_store_new [] 0 0), flags := 0, search_results := [] }
          { include_manager := [], exclude_manager := 0, flags := 1 }).1 =
        { store := some (index_store_new [] 0 0), flags := 0, search_results := [] } ∧
      ({ store := some (index_store_new [] 0 0), flags := 0,
         search_results := [] } : Database).flags ≠
        ({ include_manager := [], exclude_manager := 0, flags := 1 } : ScanWork).flags := by
  refine ⟨rfl, rfl, by decide⟩

/-- Claim C4, amended: a Scan work item is a no-op (state unchanged, nothing
emitted) iff a store is present and the include and the exclude manager
of the work equal the current ones; the flags are not part of the
comparison.  When that condition fails, the handler adopts the work
flags, swaps in a freshly built store, clears every search view and
emits exactly one scan-started/scan-finished pair; and a second Scan
with the same work item directly after a first one emits nothing. -/
theorem fsdb_c4_scan_config (self : Database) (work : ScanWork) :
    (((scan_database self work).1 = self ∧ (scan_database self work).2 = []) ↔
      (self.store.isSome ∧ get_include_manager self = some work.include_manager ∧
        get_exclude_manager self = some work.exclude_manager)) ∧
    (¬ (self.store.isSome ∧ get_include_manager self = some work.include_manager ∧
        get_exclude_manager self = some work.exclude_manager) →
      (scan_database self work).2 = [DbEvent.scanStarted, DbEvent.scanFinished] ∧
      (scan_database self work).1.search_results = [] ∧
      (scan_database self work).1.flags = work.flags ∧
      (scan_database self work).1.store =
        some (index_store_start
          (index_store_new work.include_manager work.exclude_manager work.flags)
          Option.none).1) ∧
    (scan_database (scan_database self work).1 work).2 = [] := by
  by_cases hcond : (self.store.isSome ∧ get_include_manager self = some work.include_manager ∧
      get_exclude_manager self = some work.exclude_manager)
  · have hrun : scan_database self work = (self, []) := by
      simp only [scan_database, if_pos hcond]
    refine ⟨?_, ?_, ?_⟩
    · simp [hrun, hcond]
    · intro h
      exact absurd hcond h
    · rw [hrun]
      simp only [scan_database, if_pos hcond]
  · have hrun : scan_database self work =
        ({ store := some (index_store_start
             (index_store_new work.include_manager work.exclude_manager work.flags)
             Option.none).1,
           flags := work.flags,
           search_results := [] },
         [DbEvent.scanStarted, DbEvent.scanFinished]) := by
      simp only [scan_database, if_neg hcond]
    refine ⟨?_, ?_, ?_⟩
    · constructor
      · rintro ⟨h1, h2⟩
        rw [hrun] at h2
        simp at h2
      · intro h
        exact absurd h hcond
    · intro h
      rw [hrun]
      exact ⟨rfl, rfl, rfl, rfl⟩
    · rw [hrun]
      have hm := index_store_start_managers
        (index_store_new work.include_manager work.exclude_manager work.flags) Option.none
      have hcond2 : (some (index_store_start
            (index_store_new work.include_manager work.exclude_manager work.flags)
            Option.none).1).isSome = true ∧
          (some (index_store_start
            (index_store_new work.include_manager work.exclude_manager work.flags)
            Option.none).1).map IndexStore.include_manager = some work.include_manager ∧
          (some (index_store_start
            (index_store_new work.include_manager work.exclude_manager work.flags)
            Option.none).1).map IndexStore.exclude_manager = some work.exclude_manager := by
        refine ⟨rfl, ?_, ?_⟩
        · simp only [Option.map_some', hm.1]
          rfl
        · simp only [Option.map_some', hm.2]
          rfl
      simp only [scan_database, get_include_manager, get_exclude_manager, if_pos hcond2]

/-- Claim C4, witness: the amended characterisation applied to an engine
without a store and a trivial scan work item. -/
theorem fsdb_c4_scan_config_witness :
    (((scan_database { store := none, flags := 0, search_results := [] }
          { include_manager := [], exclude_manager := 0, flags := 0 }).1 =
        { store := none, flags := 0, search_results := [] } ∧
      (scan_database { store := none, flags := 0, search_results := [] }
          { include_manager := [], exclude_manager := 0, flags := 0 }).2 = []) ↔
      (({ store := none, flags := 0, search_results := [] } : Database).store.isSome ∧
        get_include_manager { store := none, flags := 0, search_results := [] } = some [] ∧
        get_exclude_manager { store := none, flags := 0, search_results := [] } = some 0)) ∧
    (¬ (({ store := none, flags := 0, search_results := [] } : Database).store.isSome ∧
        get_include_manager { store := none, flags := 0, search_results := [] } = some [] ∧
        get_exclude_manager { store := none, flags := 0, search_results := [] } = some 0) →
      (scan_database { store := none, flags := 0, search_results := [] }
          { include_manager := [], exclude_manager := 0, flags := 0 }).2 =
        [DbEvent.scanStarted, DbEvent.scanFinished] ∧
      (scan_database { store := none, flags := 0, search_results := [] }
          { include_manager := [], exclude_manager := 0, flags := 0 }).1.search_results = [] ∧
      (scan_database { store := none, flags := 0, search_results := [] }
          { include_manager := [], exclude_manager := 0, flags := 0 }).1.flags = 0 ∧
      (scan_database { store := none, flags := 0, search_results := [] }
          { include_manager := [], exclude_manager := 0, flags := 0 }).1.store =
        some (index_store_start (index_store_new [] 0 0) Option.none).1) ∧
    (scan_database (scan_database { store := none, flags := 0, search_results := [] }
        { include_manager := [], exclude_manager := 0, flags := 0 }).1
      { include_manager := [], exclude_manager := 0, flags := 0 }).2 = [] :=
  fsdb_c4_scan_config { store := none, flags := 0, search_results := [] }
    { include_manager := [], exclude_manager := 0, flags := 0 }

/-- The include loop observes the cancellation token exactly once per
include, so its final observation time is the include count. -/
theorem scan_includes_time (flags : Nat) : ∀ (l : List DbInclude) (c : GCancellable) (t : Nat),
    (scan_includes flags l c t).2 = t + l.length
| [], c, t => by simp [scan_includes]
| inc :: rest, c, t => by
  have ih := scan_includes_time flags rest c (t + 1)
  show (scan_includes flags rest c (t + 1)).2 = t + (inc :: rest).length
  rw [ih, List.length_cons]
  omega

/-- Claim C5: starting a freshly created store with a token that trips at any
observation point during the run leaves the store with no per-root
indices, every container slot of both arrays null, and running false:
either the check after the include scans returns before any store
mutation, or the check after the container builds frees every container
and removes every index. -/
theorem fsdb_c5_cancelled_start_rollback (inc : IncludeManager) (exc : ExcludeManager)
    (flags : Nat) (k : Nat)
    (hcancel : k < (index_store_start (index_store_new inc exc flags) (some k)).2) :
    (index_store_start (index_store_new inc exc flags) (some k)).1.indices = [] ∧
    (∀ p, (index_store_start (index_store_new inc exc flags) (some k)).1.folder_container p =
      none) ∧
    (∀ p, (index_store_start (index_store_new inc exc flags) (some k)).1.file_container p =
      none) ∧
    (index_store_start (index_store_new inc exc flags) (some k)).1.running = false := by
  unfold index_store_start at hcancel ⊢
  dsimp only at hcancel ⊢
  rw [if_neg (by simp [index_store_new])] at hcancel ⊢
  by_cases h1 : g_cancellable_is_cancelled (some k)
      (scan_includes (index_store_new inc exc flags).flags
        (index_store_new inc exc flags).include_manager (some k) 0).2 = true
  · rw [if_pos h1]
    exact ⟨rfl, fun p => rfl, fun p => rfl, rfl⟩
  · rw [if_neg h1] at hcancel ⊢
    by_cases h2 : g_cancellable_is_cancelled (some k)
        ((scan_includes (index_store_new inc exc flags).flags
          (index_store_new inc exc flags).include_manager (some k) 0).2 + 11) = true
    · rw [if_pos h2]
      refine ⟨rfl, fun p => rfl, fun p => rfl, ?_⟩
      exact (merge_indices_fields
        (scan_includes (index_store_new inc exc flags).flags
          (index_store_new inc exc flags).include_manager (some k) 0).1
        (index_store_new inc exc flags) [] []).2.2.2.2.1
    · rw [if_neg h2] at hcancel
      exfalso
      simp only [g_cancellable_is_cancelled, decide_eq_true_eq] at h1 h2
      omega

/-- Claim C5, witness: an empty include set and a token tripped from the
start; the run observes it at the first check and rolls back. -/
theorem fsdb_c5_cancelled_start_rollback_witness :
    0 < (index_store_start (index_store_new [] 0 0) (some 0)).2 ∧
      ((index_store_start (index_store_new [] 0 0) (some 0)).1.indices = [] ∧
      (∀ p, (index_store_start (index_store_new [] 0 0) (some 0)).1.folder_container p =
        none) ∧
      (∀ p, (index_store_start (index_store_new [] 0 0) (some 0)).1.file_container p =
        none) ∧
      (index_store_start (index_store_new [] 0 0) (some 0)).1.running = false) :=
  ⟨by decide, fsdb_c5_cancelled_start_rollback [] 0 0 0 (by decide)⟩

/-- isSome passes through Option.map. -/
theorem option_isSome_map {α β : Type} (f : α → β) (o : Option α) :
    (o.map f).isSome = o.isSome := by
  cases o <;> rfl

/-- At every observable store state, a folder container exists for a sort key
iff a file container does: construction leaves both arrays empty, a
cancelled start frees both arrays, a completed start fills both arrays at
the same five keys (the token was seen untripped at the final check, so
it was untripped at each earlier build), and entry addition and removal
only map existing containers. -/
theorem reachable_balanced (s : IndexStore) (h : ReachableStore s) :
    ∀ p, (s.folder_container p).isSome = (s.file_container p).isSome := by
  induction h with
  | new inc exc flags => exact fun p => rfl
  | start s c hs ih =>
    intro p
    unfold index_store_start
    dsimp only
    split
    · exact ih p
    · split
      · exact ih p
      · obtain ⟨_, _, hfo, hfi, _, _⟩ :=
          merge_indices_fields (scan_includes s.flags s.include_manager c 0).1 s [] []
        split
        · rfl
        · rename_i hnc
          have hmono : ∀ t, t ≤ (scan_includes s.flags s.include_manager c 0).2 + 11 →
              g_cancellable_is_cancelled c t = false := by
            intro t ht
            cases c with
            | none => rfl
            | some k =>
              simp only [g_cancellable_is_cancelled, decide_eq_true_eq] at hnc ⊢
              simp only [decide_eq_false_iff_not]
              omega
          have hb1 := hmono ((scan_includes s.flags s.include_manager c 0).2 + 1) (by omega)
          have hb2 := hmono ((scan_includes s.flags s.include_manager c 0).2 + 2) (by omega)
          have hb3 := hmono ((scan_includes s.flags s.include_manager c 0).2 + 3) (by omega)
          have hb4 := hmono ((scan_includes s.flags s.include_manager c 0).2 + 4) (by omega)
          have hb5 := hmono ((scan_includes s.flags s.include_manager c 0).2 + 5) (by omega)
          have hb6 := hmono ((scan_includes s.flags s.include_manager c 0).2 + 6) (by omega)
          have hb7 := hmono ((scan_includes s.flags s.include_manager c 0).2 + 7) (by omega)
          have hb8 := hmono ((scan_includes s.flags s.include_manager c 0).2 + 8) (by omega)
          have hb9 := hmono ((scan_includes s.flags s.include_manager c 0).2 + 9) (by omega)
          have hb10 := hmono ((scan_includes s.flags s.include_manager c 0).2 + 10) (by omega)
          simp only [build_sorted_containers]
          cases p <;>
            simp [Function.update, fsearch_database_entries_container_new, hb1, hb2, hb3,
              hb4, hb5, hb6, hb7, hb8, hb9, hb10, hfo, hfi]
          exact ih DatabaseIndexProperty.noneProp
  | add s entries is_dir hs ih =>
    intro p
    unfold index_store_add_entries
    by_cases h0 : entries.length = 0
    · rw [if_pos h0]
      exact ih p
    · rw [if_neg h0]
      by_cases hd : is_dir = true
      · rw [if_pos hd]
        dsimp only
        rw [option_isSome_map]
        exact ih p
      · rw [if_neg hd]
        dsimp only
        rw [option_isSome_map]
        exact ih p
  | removeFolders s folders index hs ih =>
    intro p
    unfold index_store_remove_folders
    by_cases h0 : folders.length = 0
    · rw [if_pos h0]
      exact ih p
    · rw [if_neg h0]
      by_cases hm : (!(s.indices.contains index)) = true
      · rw [if_pos hm]
        exact ih p
      · rw [if_neg hm]
        dsimp only
        rw [option_isSome_map]
        exact ih p
  | removeFiles s files index hs ih =>
    intro p
    unfold index_store_remove_files
    by_cases h0 : files.length = 0
    · rw [if_pos h0]
      exact ih p
    · rw [if_neg h0]
      by_cases hm : (!(s.indices.contains index)) = true
      · rw [if_pos hm]
        exact ih p
      · rw [if_neg hm]
        dsimp only
        rw [option_isSome_map]
        exact ih p
  | removeEntry s entry entry_type index hs ih =>
    intro p
    unfold index_store_remove_entry
    cases entry with
    | none => exact ih p
    | some e =>
      dsimp only
      by_cases hm : (!(s.indices.contains index)) = true
      · rw [if_pos hm]
        exact ih p
      · rw [if_neg hm]
        by_cases ht : entry_type = DatabaseEntryType.folder
        · rw [if_pos ht]
          dsimp only
          rw [option_isSome_map]
          exact ih p
        · rw [if_neg ht]
          dsimp only
          rw [option_isSome_map]
          exact ih p

/-- Claim C8: at every observable store state, the number of sort keys with a
non-null folder container and the number with a non-null file container
both equal num_fast_sort_indices: every sort key is maintained for both
entry types or for neither. -/
theorem fsdb_c8_fast_sort_balance (s : IndexStore) (h : ReachableStore s) :
    num_folder_fast_containers s = index_store_get_num_fast_sort_indices s ∧
      num_file_fast_containers s = index_store_get_num_fast_sort_indices s := by
  have hb := reachable_balanced s h
  constructor
  · refine List.countP_congr ?_
    intro p hp
    rw [← hb p, Bool.and_self]
  · refine List.countP_congr ?_
    intro p hp
    rw [hb p, ← hb p, Bool.and_self]

/-- Claim C8, witness: the balance counts of a freshly constructed store. -/
theorem fsdb_c8_fast_sort_balance_witness :
    num_folder_fast_containers (index_store_new [] 0 0) =
        index_store_get_num_fast_sort_indices (index_store_new [] 0 0) ∧
      num_file_fast_containers (index_store_new [] 0 0) =
        index_store_get_num_fast_sort_indices (index_store_new [] 0 0) :=
  fsdb_c8_fast_sort_balance (index_store_new [] 0 0) (ReachableStore.new [] 0 0)

/-- The common-prefix scan never runs past the first name. -/
theorem name_offset_go_le_left : ∀ (old new : List Nat) (fuel : Nat),
    name_offset_go old new fuel ≤ old.length
| o :: os, n :: ns, fuel + 1 => by
  by_cases h : o = n ∧ o ≠ 0
  · simp only [name_offset_go, if_pos h, List.length_cons]
    exact Nat.succ_le_succ (name_offset_go_le_left os ns fuel)
  · simp only [name_offset_go, if_neg h]
    exact Nat.zero_le _
| [], _, _ => by
  simp [name_offset_go]
| _ :: _, [], _ => by
  simp [name_offset_go]
| _ :: _, _ :: _, 0 => by
  simp [name_offset_go]

/-- The common-prefix scan never runs past the second name. -/
theorem name_offset_go_le_right : ∀ (old new : List Nat) (fuel : Nat),
    name_offset_go old new fuel ≤ new.length
| o :: os, n :: ns, fuel + 1 => by
  by_cases h : o = n ∧ o ≠ 0
  · simp only [name_offset_go, if_pos h, List.length_cons]
    exact Nat.succ_le_succ (name_offset_go_le_right os ns fuel)
  · simp only [name_offset_go, if_neg h]
    exact Nat.zero_le _
| [], _, _ => by
  simp [name_offset_go]
| _ :: _, [], _ => by
  simp [name_offset_go]
| _ :: _, _ :: _, 0 => by
  simp [name_offset_go]

/-- Up to the returned offset the two names agree byte for byte. -/
theorem name_offset_go_take : ∀ (old new : List Nat) (fuel : Nat),
    old.take (name_offset_go old new fuel) = new.take (name_offset_go old new fuel)
| o :: os, n :: ns, fuel + 1 => by
  by_cases h : o = n ∧ o ≠ 0
  · simp only [name_offset_go, if_pos h, List.take_succ_cons]
    rw [name_offset_go_take os ns fuel, h.1]
  · simp only [name_offset_go, if_neg h, List.take_zero]
| [], _, _ => by
  simp [name_offset_go]
| _ :: _, [], _ => by
  simp [name_offset_go]
| _ :: _, _ :: _, 0 => by
  simp [name_offset_go]

/-- get_name_offset is bounded by the new name length. -/
theorem get_name_offset_le (old new : List Nat) : get_name_offset old new ≤ new.length :=
  name_offset_go_le_right old new 255

/-- The two names agree up to get_name_offset. -/
theorem get_name_offset_take_eq (old new : List Nat) :
    old.take (get_name_offset old new) = new.take (get_name_offset old new) :=
  name_offset_go_take old new 255

/-- A NUL-free byte list survives the C-string read unchanged. -/
theorem takeWhile_ne_zero_eq_self : ∀ (l : List Nat), (∀ b ∈ l, b ≠ 0) →
    l.takeWhile (fun b => b ≠ 0) = l
| [], _ => rfl
| b :: bs, h => by
  have hb : b ≠ 0 := h b (List.mem_cons_self b bs)
  have ht := takeWhile_ne_zero_eq_self bs (fun x hx => h x (List.mem_cons_of_mem b hx))
  simp [List.takeWhile_cons, hb, ht]
  exact fun x hx => h x (List.mem_cons_of_mem b hx)

/-- Erasing the previous name at the offset and appending the new suffix
reconstructs the new name (the two names agree up to the offset). -/
theorem erase_append_suffix (prev nam : List Nat) :
    prev.take (get_name_offset prev nam) ++ nam.drop (get_name_offset prev nam) = nam := by
  rw [get_name_offset_take_eq prev nam]
  exact List.take_append_drop _ nam

/-- What save_entry_super_elements produces for a NUL-free name of at most
255 bytes: offset against the previous name, the exact remaining suffix
as the chunk (no u8 truncation in this range), and the new name as the
updated previous-name buffer. -/
theorem save_super_spec (index_flags : Nat) (e : DbEntry) (parent_idx : Nat) (prev : List Nat)
    (hlen : e.name.length ≤ 255) (hnul : ∀ b ∈ e.name, b ≠ 0) :
    save_entry_super_elements index_flags e parent_idx prev =
      ({ name_offset := get_name_offset prev e.name
         name_len := e.name.length - get_name_offset prev e.name
         name_chunk := e.name.drop (get_name_offset prev e.name)
         size :=
           if index_flags &&& DATABASE_INDEX_PROPERTY_FLAG_SIZE ≠ 0 then some e.size else none
         mtime :=
           if index_flags &&& DATABASE_INDEX_PROPERTY_FLAG_MODIFICATION_TIME ≠ 0 then
             some e.mtime
           else none
         parent_idx := parent_idx }, e.name) := by
  have hnn : e.name.takeWhile (fun b => b ≠ 0) = e.name := takeWhile_ne_zero_eq_self e.name hnul
  have hkle : get_name_offset prev e.name ≤ e.name.length := get_name_offset_le prev e.name
  have hmod : (e.name.length - get_name_offset prev e.name) % 256 =
      e.name.length - get_name_offset prev e.name := Nat.mod_eq_of_lt (by omega)
  have hprev2 : prev.take (get_name_offset prev e.name) ++
      e.name.drop (get_name_offset prev e.name) = e.name := erase_append_suffix prev e.name
  have hchunk : (if 0 < e.name.length - get_name_offset prev e.name then
        (e.name.drop (get_name_offset prev e.name)).take
          (e.name.length - get_name_offset prev e.name)
      else []) = e.name.drop (get_name_offset prev e.name) := by
    by_cases hpos : 0 < e.name.length - get_name_offset prev e.name
    · rw [if_pos hpos]
      apply List.take_of_length_le
      rw [List.length_drop]
    · rw [if_neg hpos, List.drop_eq_nil_of_le (by omega)]
  unfold save_entry_super_elements
  dsimp only
  rw [hnn, hmod, hprev2, hchunk]

/-- Decoding the record written for a NUL-free name of at most 255 bytes
against the same previous-name state reconstructs the name exactly, sets
size and mtime iff the corresponding flag is set, and leaves the decoder
previous-name buffer at the name. -/
theorem load_super_spec (index_flags : Nat) (e : DbEntry) (parent_idx : Nat) (prev : List Nat)
    (e0 : DbEntry) (hlen : e.name.length ≤ 255) (hnul : ∀ b ∈ e.name, b ≠ 0) :
    load_entry_super_elements_from_memory index_flags
        (save_entry_super_elements index_flags e parent_idx prev).1 e0 prev =
      ({ e0 with
          name := e.name
          size :=
            if index_flags &&& DATABASE_INDEX_PROPERTY_FLAG_SIZE ≠ 0 then e.size else e0.size
          mtime :=
            if index_flags &&& DATABASE_INDEX_PROPERTY_FLAG_MODIFICATION_TIME ≠ 0 then e.mtime
            else e0.mtime },
        e.name) := by
  rw [save_super_spec index_flags e parent_idx prev hlen hnul]
  have hkle : get_name_offset prev e.name ≤ e.name.length := get_name_offset_le prev e.name
  have hprev2 : prev.take (get_name_offset prev e.name) ++
      e.name.drop (get_name_offset prev e.name) = e.name := erase_append_suffix prev e.name
  have hnulc : ∀ b ∈ e.name.drop (get_name_offset prev e.name), b ≠ 0 :=
    fun b hb => hnul b (List.drop_subset _ _ hb)
  have hname : prev.take (get_name_offset prev e.name) ++
      (if 0 < e.name.length - get_name_offset prev e.name then
        (e.name.drop (get_name_offset prev e.name)).takeWhile (fun b => b ≠ 0)
      else []) = e.name := by
    by_cases hpos : 0 < e.name.length - get_name_offset prev e.name
    · rw [if_pos hpos, takeWhile_ne_zero_eq_self _ hnulc]
      exact hprev2
    · have hdrop : e.name.drop (get_name_offset prev e.name) = [] :=
        List.drop_eq_nil_of_le (by omega)
      rw [hdrop, List.append_nil] at hprev2
      rw [if_neg hpos, List.append_nil, hprev2]
  unfold load_entry_super_elements_from_memory
  dsimp only
  rw [hname]
  by_cases hS : index_flags &&& DATABASE_INDEX_PROPERTY_FLAG_SIZE ≠ 0
  · by_cases hM : index_flags &&& DATABASE_INDEX_PROPERTY_FLAG_MODIFICATION_TIME ≠ 0
    · simp only [if_pos hS, if_pos hM, Option.getD_some]
    · simp only [if_pos hS, if_neg hM, Option.getD_some]
  · by_cases hM : index_flags &&& DATABASE_INDEX_PROPERTY_FLAG_MODIFICATION_TIME ≠ 0
    · simp only [if_neg hS, if_pos hM, Option.getD_some]
    · simp only [if_neg hS, if_neg hM]

/-- The folder block has one record per folder. -/
theorem save_folders_go_length (index_flags : Nat) : ∀ (es : List DbEntry) (i : Nat)
    (prev : List Nat), (save_folders_go index_flags es i prev).length = es.length
| [], _, _ => rfl
| e :: es, i, prev => by
  simp only [save_folders_go, List.length_cons]
  rw [save_folders_go_length index_flags es (i + 1)]

/-- Round trip of the file block loop: decoding the saved records with the
same flags and any matching previous-name state reproduces every file
modulo the decoded projection. -/
theorem load_save_files_go (index_flags : Nat) (nfolders : Nat) :
    ∀ (es : List DbEntry) (prev : List Nat) (i : Nat),
    (∀ e ∈ es, e.etype = DatabaseEntryType.file) →
    (∀ e ∈ es, e.name.length ≤ 255 ∧ ∀ b ∈ e.name, b ≠ 0) →
    (∀ e ∈ es, file_parent_ok nfolders e.parent = true) →
    load_files_go index_flags nfolders (save_files_go index_flags es prev) i prev =
      es.map (decoded_projection index_flags)
| [], prev, i, _, _, _ => rfl
| e :: es, prev, i, hty, hname, hpar => by
  have hn := hname e (List.mem_cons_self e es)
  have hpe := hpar e (List.mem_cons_self e es)
  obtain ⟨p, hp⟩ : ∃ p, e.parent = some p := by
    cases hpp : e.parent with
    | none => rw [hpp] at hpe; cases hpe
    | some p => exact ⟨p, rfl⟩
  have hplt : p < nfolders := by
    rw [hp] at hpe
    simpa [file_parent_ok] using hpe
  have hety : e.etype = DatabaseEntryType.file := hty e (List.mem_cons_self e es)
  simp only [save_files_go, load_files_go, hp]
  rw [load_super_spec index_flags e p prev fresh_file_entry hn.1 hn.2]
  rw [save_super_spec index_flags e p prev hn.1 hn.2]
  dsimp only
  rw [if_pos hplt]
  rw [load_save_files_go index_flags nfolders es e.name (i + 1)
    (fun x hx => hty x (List.mem_cons_of_mem e hx))
    (fun x hx => hname x (List.mem_cons_of_mem e hx))
    (fun x hx => hpar x (List.mem_cons_of_mem e hx))]
  rw [List.map_cons]
  cases e with
  | mk etype nam sz mt par dbi =>
    dsimp only at hety hp ⊢
    subst hety
    subst hp
    rfl

/-- Round trip of the folder block loop: decoding the saved records at the
same starting position with the same flags reproduces every folder modulo
the decoded projection; a record whose parent index equals its own
position decodes as a root. -/
theorem load_save_folders_go (index_flags : Nat) (nfolders : Nat) :
    ∀ (es : List DbEntry) (i : Nat) (prev : List Nat),
    (∀ e ∈ es, e.etype = DatabaseEntryType.folder) →
    (∀ e ∈ es, e.name.length ≤ 255 ∧ ∀ b ∈ e.name, b ≠ 0) →
    (∀ j (hj : j < es.length), folder_parent_ok nfolders (i + j) (es.get ⟨j, hj⟩).parent =
      true) →
    load_folders_go index_flags nfolders (save_folders_go index_flags es i prev) i prev =
      es.map (decoded_projection index_flags)
| [], i, prev, _, _, _ => rfl
| e :: es, i, prev, hty, hname, hpar => by
  have hn := hname e (List.mem_cons_self e es)
  have hety : e.etype = DatabaseEntryType.folder := hty e (List.mem_cons_self e es)
  have hpe : folder_parent_ok nfolders i e.parent = true := by
    have := hpar 0 (by simp)
    simpa using this
  have htail : ∀ j (hj : j < es.length),
      folder_parent_ok nfolders ((i + 1) + j) (es.get ⟨j, hj⟩).parent = true := by
    intro j hj
    have := hpar (j + 1) (by simpa using Nat.succ_lt_succ hj)
    have harith : i + (j + 1) = (i + 1) + j := by omega
    rw [harith] at this
    simpa using this
  cases hpp : e.parent with
  | none =>
    simp only [save_folders_go, load_folders_go, hpp]
    rw [load_super_spec index_flags e i prev fresh_folder_entry hn.1 hn.2]
    rw [save_super_spec index_flags e i prev hn.1 hn.2]
    dsimp only
    rw [if_neg (by simp)]
    rw [load_save_folders_go index_flags nfolders es (i + 1) e.name
      (fun x hx => hty x (List.mem_cons_of_mem e hx))
      (fun x hx => hname x (List.mem_cons_of_mem e hx)) htail]
    rw [List.map_cons]
    cases e with
    | mk etype nam sz mt par dbi =>
      dsimp only at hety hpp ⊢
      subst hety
      subst hpp
      rfl
  | some p =>
    have hplt : p < nfolders ∧ p ≠ i := by
      rw [hpp] at hpe
      simpa [folder_parent_ok] using hpe
    simp only [save_folders_go, load_folders_go, hpp]
    rw [load_super_spec index_flags e p prev fresh_folder_entry hn.1 hn.2]
    rw [save_super_spec index_flags e p prev hn.1 hn.2]
    dsimp only
    rw [if_pos hplt.2, if_pos hplt.1]
    rw [load_save_folders_go index_flags nfolders es (i + 1) e.name
      (fun x hx => hty x (List.mem_cons_of_mem e hx))
      (fun x hx => hname x (List.mem_cons_of_mem e hx)) htail]
    rw [List.map_cons]
    cases e with
    | mk etype nam sz mt par dbi =>
      dsimp only at hety hpp ⊢
      subst hety
      subst hpp
      rfl

set_option maxRecDepth 8192 in
/-- Claim C2, counterexample: a store with a single file whose name is 256
bytes long does not round-trip.  The record field name_len is a u8, so
the encoder computes (256 - 0) mod 256 = 0 and writes no name bytes at
all; decoding yields an empty name instead of the original one.  The
flags set both Size and ModificationTime, so the name is the only
divergence. -/
theorem fsdb_c2_counterexample :
    (load_files 12 1 (save_files 12
        [{ etype := DatabaseEntryType.file, name := List.replicate 256 97, size := 0,
           mtime := 0, parent := some 0, db_index := 0 }])).map DbEntry.name ≠
      [List.replicate 256 97] := by
  decide

/-- Claim C2, amended: for every store whose entry names are NUL-free and at
most 255 bytes long (name_offset and name_len are u8 fields), whose
folder parents lie inside the folder block and are never the folder
itself (a self-reference is the root marker on disk), and whose files
all have a parent inside the folder block, encoding the folder and file
blocks and decoding them reproduces every entry with identical name,
type and parent link, and with identical size and mtime whenever the
corresponding property flag is set (an unset flag stores nothing, and
the decoder leaves the freshly allocated zero value); the discarded
db_index preamble and the scratch idx slots are outside the round trip. -/
theorem fsdb_c2_roundtrip_amended (index_flags : Nat) (folders files : List DbEntry)
    (hty_fo : ∀ e ∈ folders, e.etype = DatabaseEntryType.folder)
    (hty_fi : ∀ e ∈ files, e.etype = DatabaseEntryType.file)
    (hname_fo : ∀ e ∈ folders, e.name.length ≤ 255 ∧ ∀ b ∈ e.name, b ≠ 0)
    (hname_fi : ∀ e ∈ files, e.name.length ≤ 255 ∧ ∀ b ∈ e.name, b ≠ 0)
    (hpar_fo : ∀ j (hj : j < folders.length),
      folder_parent_ok folders.length j (folders.get ⟨j, hj⟩).parent = true)
    (hpar_fi : ∀ e ∈ files, file_parent_ok folders.length e.parent = true) :
    load_folders index_flags (save_folders index_flags folders) =
        folders.map (decoded_projection index_flags) ∧
      load_files index_flags folders.length (save_files index_flags files) =
        files.map (decoded_projection index_flags) := by
  constructor
  · unfold load_folders save_folders
    rw [save_folders_go_length]
    refine load_save_folders_go index_flags folders.length folders 0 [] hty_fo hname_fo ?_
    intro j hj
    simpa using hpar_fo j hj
  · unfold load_files save_files
    exact load_save_files_go index_flags folders.length files [] 0 hty_fi hname_fi hpar_fi

/-- Claim C2, witness: one root folder and one file round-trip with both
conditional properties enabled. -/
theorem fsdb_c2_roundtrip_amended_witness :
    load_folders 12 (save_folders 12
        [{ etype := DatabaseEntryType.folder, name := [100], size := 7, mtime := 3,
           parent := none, db_index := 0 },
         { etype := DatabaseEntryType.folder, name := [100, 101], size := 2, mtime := 4,
           parent := some 0, db_index := 0 }]) =
      [{ etype := DatabaseEntryType.folder, name := [100], size := 7, mtime := 3,
         parent := none, db_index := 0 },
       { etype := DatabaseEntryType.folder, name := [100, 101], size := 2, mtime := 4,
         parent := some 0, db_index := 0 }].map (decoded_projection 12) ∧
    load_files 12 2 (save_files 12
        [{ etype := DatabaseEntryType.file, name := [97], size := 5, mtime := 9,
           parent := some 1, db_index := 0 }]) =
      [{ etype := DatabaseEntryType.file, name := [97], size := 5, mtime := 9,
         parent := some 1, db_index := 0 }].map (decoded_projection 12) :=
  fsdb_c2_roundtrip_amended 12
    [{ etype := DatabaseEntryType.folder, name := [100], size := 7, mtime := 3,
       parent := none, db_index := 0 },
     { etype := DatabaseEntryType.folder, name := [100, 101], size := 2, mtime := 4,
       parent := some 0, db_index := 0 }]
    [{ etype := DatabaseEntryType.file, name := [97], size := 5, mtime := 9,
       parent := some 1, db_index := 0 }]
    (by decide) (by decide) (by decide) (by decide) (by decide) (by decide)

end Fsearch
